import Mathlib

/-!
Shallow embedding of `src/av1transcoder/argument_parser.py`: the constrained
scalar types, the `CropValues` record, and the post-parse derivation pass of
`parse_args` (implied-flag resolution and crop-value association).

Python integers are modelled as `Int`, Python floats as `ℚ` (the float
comparisons `0 < v <= 1` agree with the rational order on the represented
values), fallible construction (`raise ValueError`) as `Except String`.
-/

namespace AV1Transcoder

/-- Error message raised by `NonNegativeInt.__new__` for a negative input. -/
def nonNegativeErrMsg (n : Int) : String :=
  "Invalid number. Expected a non-negative integer. Got " ++ toString n ++ "."

/-- Error message raised by `PositiveInt.__new__` for a non-positive input. -/
def positiveErrMsg (n : Int) : String :=
  "Invalid number. Expected a positive integer. Got " ++ toString n ++ "."

/-- Error message raised by `NormalizedFloat.__new__` for a value outside (0, 1]. -/
def normalizedErrMsg (v : ℚ) : String :=
  "Invalid number. Expected a floating point value in the interval (0, 1]. Got "
    ++ toString v ++ "."

/-- `NonNegativeInt(n)`: succeeds returning the value unless `n < 0`,
in which case it raises `ValueError`. -/
def NonNegativeInt.mk (n : Int) : Except String Int :=
  if n < 0 then .error (nonNegativeErrMsg n) else .ok n

/-- `PositiveInt(n)`: succeeds returning the value unless `n <= 0`,
in which case it raises `ValueError`. -/
def PositiveInt.mk (n : Int) : Except String Int :=
  if n ≤ 0 then .error (positiveErrMsg n) else .ok n

/-- `NormalizedFloat(v)`: succeeds returning the value iff `0 < v <= 1`,
otherwise raises `ValueError`. -/
def NormalizedFloat.mk (v : ℚ) : Except String ℚ :=
  if 0 < v ∧ v ≤ 1 then .ok v else .error (normalizedErrMsg v)

/-- The `CropValues` NamedTuple: four crop pixel counts. -/
structure CropValues where
  top : Int
  bottom : Int
  left : Int
  right : Int
  deriving DecidableEq, Repr

/-- `CropValues.crop_height` property: `top + bottom`, computed on access. -/
def CropValues.crop_height (c : CropValues) : Int := c.top + c.bottom

/-- `CropValues.crop_width` property: `left + right`, computed on access. -/
def CropValues.crop_width (c : CropValues) : Int := c.left + c.right

/-- Construction of a `CropValues` from four raw values as the program performs
it: each of the four tokens is converted through `NonNegativeInt` (argparse
`type=NonNegativeInt` on `--crop`), then packed by `CropValues(*values)`.
Fails with the component's error on the first negative value. -/
def CropValues.make (t b l r : Int) : Except String CropValues :=
  match NonNegativeInt.mk t with
  | .error e => .error e
  | .ok t' =>
    match NonNegativeInt.mk b with
    | .error e => .error e
    | .ok b' =>
      match NonNegativeInt.mk l with
      | .error e => .error e
      | .ok l' =>
        match NonNegativeInt.mk r with
        | .error e => .error e
        | .ok r' => .ok ⟨t', b', l', r'⟩

/-- Denotation of the iterator stored in `args.crop_values` by `parse_args`:
either `itertools.repeat(None, times=n)` (a bounded run of `None` markers) or
`itertools.chain(specs, itertools.repeat(last))` (the given specifications,
then the last one forever). Elements are `Option CropValues`, with `none`
standing for Python `None`. -/
inductive CropIter where
  | bounded : Nat → CropIter
  | chained : List CropValues → CropValues → CropIter
  deriving DecidableEq, Repr

/-- The i-th element the iterator yields (outer `none` = iterator exhausted). -/
def CropIter.get : CropIter → Nat → Option (Option CropValues)
  | .bounded n, i => if i < n then some none else none
  | .chained specs last, i => some (some (specs.getD i last))

/-- The first `n` elements the iterator yields (`itertools.islice`-style
truncation, as a `zip` with an `n`-element input-file list performs it). -/
def CropIter.take : CropIter → Nat → List (Option CropValues)
  | .bounded m, n => List.replicate (min n m) none
  | .chained specs last, n => (List.range n).map (fun i => some (specs.getD i last))

/-- The crop association step of `parse_args` (lines 299-307):
`if crop_values: args.crop_values = chain(crop_values, repeat(crop_values[-1]))`
`else: args.crop_values = repeat(None, times=len(args.input_files))`. -/
def deriveCrops : List CropValues → Nat → CropIter
  | [], numInputs => .bounded numInputs
  | x :: xs, _ => .chained (x :: xs) (List.getLast (x :: xs) (List.cons_ne_nil x xs))

/-- The raw parse result produced by the argparse collaborator, before the
derivation pass of `parse_args`. The crop field is a list of raw 4-tuples in
user-supplied order; paths are opaque strings. -/
structure RawArgs where
  input_files : List String
  output_dir : Option String
  temp_dir : Option String
  keep_temp : Bool
  force_overwrite : Bool
  scene_cut_threshold : ℚ
  min_scene_length : Int
  enable_single_pass_encode : Bool
  encoder_parameters : String
  global_parameters : String
  max_concurrent_encodes : Int
  deinterlace : Bool
  dump_commands : String
  limit_encodes : Option Int
  crop_values : List (Int × Int × Int × Int)
  verbose : Bool
  cutelog_integration : Bool
  ffmpeg : String
  ffprobe : String
  ffmpeg_base : Option String
  deriving DecidableEq, Repr

/-- The `Namespace` returned by `parse_args`: identical fields, except that
`crop_values` now holds the derived iterator. -/
structure Namespace where
  input_files : List String
  output_dir : Option String
  temp_dir : Option String
  keep_temp : Bool
  force_overwrite : Bool
  scene_cut_threshold : ℚ
  min_scene_length : Int
  enable_single_pass_encode : Bool
  encoder_parameters : String
  global_parameters : String
  max_concurrent_encodes : Int
  deinterlace : Bool
  dump_commands : String
  limit_encodes : Option Int
  crop_values : CropIter
  verbose : Bool
  cutelog_integration : Bool
  ffmpeg : String
  ffprobe : String
  ffmpeg_base : Option String
  deriving DecidableEq, Repr

/-- The list comprehension `[CropValues(*values) for values in args.crop_values]`,
with each tuple going through the program's `CropValues` construction path;
the first failing component aborts with its error. -/
def convertCrops : List (Int × Int × Int × Int) → Except String (List CropValues)
  | [] => .ok []
  | v :: rest =>
    match CropValues.make v.1 v.2.1 v.2.2.1 v.2.2.2 with
    | .error e => .error e
    | .ok c =>
      match convertCrops rest with
      | .error e => .error e
      | .ok cs => .ok (c :: cs)

/-- The post-parse derivation pass of `parse_args` (lines 287-308): force
`keep_temp` when `dump_commands != "no"` or `limit_encodes` is set, convert
the raw crop tuples to `CropValues`, and associate them with the input files. -/
def parse_args (args : RawArgs) : Except String Namespace :=
  match convertCrops args.crop_values with
  | .error e => .error e
  | .ok cropList =>
    .ok { input_files := args.input_files
          output_dir := args.output_dir
          temp_dir := args.temp_dir
          keep_temp :=
            if args.dump_commands ≠ "no" ∨ args.limit_encodes.isSome then true
            else args.keep_temp
          force_overwrite := args.force_overwrite
          scene_cut_threshold := args.scene_cut_threshold
          min_scene_length := args.min_scene_length
          enable_single_pass_encode := args.enable_single_pass_encode
          encoder_parameters := args.encoder_parameters
          global_parameters := args.global_parameters
          max_concurrent_encodes := args.max_concurrent_encodes
          deinterlace := args.deinterlace
          dump_commands := args.dump_commands
          limit_encodes := args.limit_encodes
          crop_values := deriveCrops cropList args.input_files.length
          verbose := args.verbose
          cutelog_integration := args.cutelog_integration
          ffmpeg := args.ffmpeg
          ffprobe := args.ffprobe
          ffmpeg_base := args.ffmpeg_base }

/-- Explicit indexing formulation from the design notes:
`crop_for(i) = specs[min(i, len(specs)-1)]` (modelled from the spec, for the
refinement claim only). -/
def crop_for (specs : List CropValues) (i : Nat) : Option CropValues :=
  specs[min i (specs.length - 1)]?

/-- Concrete crop specifications used to instantiate theorems. -/
def cropA : CropValues := ⟨1, 2, 3, 4⟩

/-- A second concrete crop specification. -/
def cropB : CropValues := ⟨5, 6, 7, 8⟩

/-- A concrete raw parse result: one input file, `--dump-commands only`,
no crop options, `keep_temp` not passed. -/
def wArgs : RawArgs :=
  { input_files := ["a.mkv"]
    output_dir := none
    temp_dir := none
    keep_temp := false
    force_overwrite := false
    scene_cut_threshold := 1
    min_scene_length := 30
    enable_single_pass_encode := false
    encoder_parameters := ""
    global_parameters := ""
    max_concurrent_encodes := 8
    deinterlace := false
    dump_commands := "only"
    limit_encodes := none
    crop_values := []
    verbose := false
    cutelog_integration := false
    ffmpeg := "ffmpeg"
    ffprobe := "ffprobe"
    ffmpeg_base := none }

/-- The namespace `parse_args` derives from `wArgs`. -/
def wNs : Namespace :=
  { input_files := ["a.mkv"]
    output_dir := none
    temp_dir := none
    keep_temp := true
    force_overwrite := false
    scene_cut_threshold := 1
    min_scene_length := 30
    enable_single_pass_encode := false
    encoder_parameters := ""
    global_parameters := ""
    max_concurrent_encodes := 8
    deinterlace := false
    dump_commands := "only"
    limit_encodes := none
    crop_values := .bounded 1
    verbose := false
    cutelog_integration := false
    ffmpeg := "ffmpeg"
    ffprobe := "ffprobe"
    ffmpeg_base := none }

/-- A concrete raw parse result with one crop option and default flags. -/
def wArgsCrop : RawArgs :=
  { wArgs with dump_commands := "no", crop_values := [(1, 2, 3, 4)] }

end AV1Transcoder

namespace AV1Transcoder

lemma deriveCrops_of_ne_nil (specs : List CropValues) (h : specs ≠ []) (N : Nat) :
    deriveCrops specs N = .chained specs (specs.getLast h) := by
  cases specs with
  | nil => exact absurd rfl h
  | cons x xs => rfl

lemma chained_take_getElem (specs : List CropValues) (last : CropValues) (N i : Nat)
    (hi : i < N) :
    ((CropIter.chained specs last).take N)[i]? = some (some (specs.getD i last)) := by
  simp [CropIter.take, List.getElem?_map, List.getElem?_range, hi]

lemma convertCrops_isOk (l : List (Int × Int × Int × Int))
    (hl : ∀ v ∈ l, 0 ≤ v.1 ∧ 0 ≤ v.2.1 ∧ 0 ≤ v.2.2.1 ∧ 0 ≤ v.2.2.2) :
    (convertCrops l).isOk = true := by
  induction l with
  | nil => rfl
  | cons v rest ih =>
    obtain ⟨h1, h2, h3, h4⟩ := hl v (by simp)
    have hmake : CropValues.make v.1 v.2.1 v.2.2.1 v.2.2.2
        = .ok ⟨v.1, v.2.1, v.2.2.1, v.2.2.2⟩ := by
      simp only [CropValues.make, NonNegativeInt.mk]
      rw [if_neg (by omega : ¬ v.1 < 0), if_neg (by omega : ¬ v.2.1 < 0),
        if_neg (by omega : ¬ v.2.2.1 < 0), if_neg (by omega : ¬ v.2.2.2 < 0)]
    have ih' := ih (fun w hw => hl w (by simp [hw]))
    cases hrest : convertCrops rest with
    | error e => rw [hrest] at ih'; simp [Except.isOk, Except.toBool] at ih'
    | ok cs => simp [convertCrops, hmake, hrest, Except.isOk, Except.toBool]

/-- C4: constructing `NonNegativeInt(n)` succeeds iff `n >= 0`, `PositiveInt(n)`
succeeds iff `n > 0`, and `NormalizedFloat(f)` succeeds iff `0 < f <= 1`; in
each failing case construction raises the out-of-range `ValueError` and no
value is produced. -/
theorem constrained_scalar_construction :
    (∀ n : Int, (∃ v, NonNegativeInt.mk n = .ok v) ↔ 0 ≤ n)
    ∧ (∀ n : Int, (∃ v, PositiveInt.mk n = .ok v) ↔ 0 < n)
    ∧ (∀ q : ℚ, (∃ v, NormalizedFloat.mk q = .ok v) ↔ (0 < q ∧ q ≤ 1))
    ∧ (∀ n : Int, n < 0 → NonNegativeInt.mk n = .error (nonNegativeErrMsg n))
    ∧ (∀ n : Int, n ≤ 0 → PositiveInt.mk n = .error (positiveErrMsg n))
    ∧ (∀ q : ℚ, ¬ (0 < q ∧ q ≤ 1) → NormalizedFloat.mk q = .error (normalizedErrMsg q)) := by
  refine ⟨?_, ?_, ?_, ?_, ?_, ?_⟩
  · intro n
    by_cases hn : n < 0 <;> simp [NonNegativeInt.mk, hn] <;> omega
  · intro n
    by_cases hn : n ≤ 0 <;> simp [PositiveInt.mk, hn] <;> omega
  · intro q
    by_cases hq : 0 < q ∧ q ≤ 1 <;> simp [NormalizedFloat.mk, hq]
  · intro n hn; simp [NonNegativeInt.mk, hn]
  · intro n hn; simp [PositiveInt.mk, hn]
  · intro q hq; simp [NormalizedFloat.mk, hq]

/-- Witness for C4: concrete failing constructions at -1, 0 and 2. -/
theorem constrained_scalar_construction_witness :
    NonNegativeInt.mk (-1) = .error (nonNegativeErrMsg (-1))
    ∧ PositiveInt.mk 0 = .error (positiveErrMsg 0)
    ∧ NormalizedFloat.mk 2 = .error (normalizedErrMsg 2) :=
  ⟨constrained_scalar_construction.2.2.2.1 (-1) (by norm_num),
   constrained_scalar_construction.2.2.2.2.1 0 (by norm_num),
   constrained_scalar_construction.2.2.2.2.2 2 (by norm_num)⟩

/-- C6: constructing a `CropValues` from four raw values fails with the
out-of-range error of its component type (`NonNegativeInt`) whenever any of
the four values is negative, and it never yields a `CropValues` holding a
negative component. -/
theorem cropvalues_negative_fails :
    (∀ t b l r : Int, (t < 0 ∨ b < 0 ∨ l < 0 ∨ r < 0) →
        ∃ v : Int, v < 0 ∧ NonNegativeInt.mk v = .error (nonNegativeErrMsg v)
          ∧ CropValues.make t b l r = .error (nonNegativeErrMsg v))
    ∧ (∀ t b l r : Int, ∀ c : CropValues, CropValues.make t b l r = .ok c →
        0 ≤ c.top ∧ 0 ≤ c.bottom ∧ 0 ≤ c.left ∧ 0 ≤ c.right) := by
  constructor
  · intro t b l r hneg
    by_cases ht : t < 0
    · exact ⟨t, ht, by simp [NonNegativeInt.mk, ht], by
        simp only [CropValues.make, NonNegativeInt.mk]; rw [if_pos ht]⟩
    · by_cases hb : b < 0
      · refine ⟨b, hb, by simp [NonNegativeInt.mk, hb], ?_⟩
        simp only [CropValues.make, NonNegativeInt.mk]
        rw [if_neg ht, if_pos hb]
      · by_cases hl : l < 0
        · refine ⟨l, hl, by simp [NonNegativeInt.mk, hl], ?_⟩
          simp only [CropValues.make, NonNegativeInt.mk]
          rw [if_neg ht, if_neg hb, if_pos hl]
        · have hr : r < 0 := by tauto
          refine ⟨r, hr, by simp [NonNegativeInt.mk, hr], ?_⟩
          simp only [CropValues.make, NonNegativeInt.mk]
          rw [if_neg ht, if_neg hb, if_neg hl, if_pos hr]
  · intro t b l r c h
    simp only [CropValues.make, NonNegativeInt.mk] at h
    by_cases ht : t < 0
    · rw [if_pos ht] at h; exact absurd h (by simp)
    · rw [if_neg ht] at h
      by_cases hb : b < 0
      · rw [if_pos hb] at h; exact absurd h (by simp)
      · rw [if_neg hb] at h
        by_cases hl : l < 0
        · rw [if_pos hl] at h; exact absurd h (by simp)
        · rw [if_neg hl] at h
          by_cases hr : r < 0
          · rw [if_pos hr] at h; exact absurd h (by simp)
          · rw [if_neg hr] at h
            have hc : c = ⟨t, b, l, r⟩ := by
              cases h; rfl
            subst hc
            exact ⟨not_lt.mp ht, not_lt.mp hb, not_lt.mp hl, not_lt.mp hr⟩

/-- Witness for C6: the failing branch at `--crop 1 2 -3 4` and the success
branch at `--crop 1 2 3 4`. -/
theorem cropvalues_negative_fails_witness :
    (CropValues.make 1 2 (-3) 4).isOk = false
    ∧ (0 ≤ cropA.top ∧ 0 ≤ cropA.bottom ∧ 0 ≤ cropA.left ∧ 0 ≤ cropA.right) := by
  constructor
  · obtain ⟨v, hv, hmk, hmake⟩ :=
      cropvalues_negative_fails.1 1 2 (-3) 4 (by norm_num)
    simp [hmake, Except.isOk, Except.toBool]
  · exact cropvalues_negative_fails.2 1 2 3 4 cropA (by rfl)

/-- C7: for every valid 4-tuple of non-negative integers, the constructed
`CropValues` exposes `crop_height = t + b` and `crop_width = l + r`, computed
from the stored fields. -/
theorem cropvalues_dimensions (t b l r : Int) (c : CropValues)
    (h : CropValues.make t b l r = .ok c) :
    c.crop_height = t + b ∧ c.crop_width = l + r := by
  simp only [CropValues.make, NonNegativeInt.mk] at h
  by_cases ht : t < 0
  · rw [if_pos ht] at h; exact absurd h (by simp)
  · rw [if_neg ht] at h
    by_cases hb : b < 0
    · rw [if_pos hb] at h; exact absurd h (by simp)
    · rw [if_neg hb] at h
      by_cases hl : l < 0
      · rw [if_pos hl] at h; exact absurd h (by simp)
      · rw [if_neg hl] at h
        by_cases hr : r < 0
        · rw [if_pos hr] at h; exact absurd h (by simp)
        · rw [if_neg hr] at h
          have hc : c = ⟨t, b, l, r⟩ := by cases h; rfl
          subst hc
          exact ⟨rfl, rfl⟩

/-- Witness for C7: at the tuple (1, 2, 3, 4). -/
theorem cropvalues_dimensions_witness :
    cropA.crop_height = 1 + 2 ∧ cropA.crop_width = 3 + 4 :=
  cropvalues_dimensions 1 2 3 4 cropA (by rfl)

/-- C10: a `CropValues` whose four components are non-negative has
non-negative derived `crop_height` and `crop_width`. -/
theorem cropvalues_dimensions_nonneg (c : CropValues)
    (ht : 0 ≤ c.top) (hb : 0 ≤ c.bottom) (hl : 0 ≤ c.left) (hr : 0 ≤ c.right) :
    0 ≤ c.crop_height ∧ 0 ≤ c.crop_width := by
  unfold CropValues.crop_height CropValues.crop_width
  omega

/-- Witness for C10: at the concrete specification (1, 2, 3, 4). -/
theorem cropvalues_dimensions_nonneg_witness :
    0 ≤ cropA.crop_height ∧ 0 ≤ cropA.crop_width :=
  cropvalues_dimensions_nonneg cropA (by decide) (by decide) (by decide) (by decide)

/-- C2: whenever `dump_commands` is not `"no"` or `limit_encodes` is set, the
`Namespace` returned by `parse_args` has `keep_temp = true`, regardless of the
value of `keep_temp` in the raw parse result. -/
theorem parse_args_forces_keep_temp (args : RawArgs) (ns : Namespace)
    (hc : args.dump_commands ≠ "no" ∨ args.limit_encodes.isSome)
    (h : parse_args args = .ok ns) :
    ns.keep_temp = true := by
  cases hconv : convertCrops args.crop_values with
  | error e => simp [parse_args, hconv] at h
  | ok cropList =>
    simp only [parse_args, hconv, Except.ok.injEq] at h
    subst h
    simp [hc]

/-- Witness for C2: at `wArgs`, which has `dump_commands = "only"` and
`keep_temp = false` upstream. -/
theorem parse_args_forces_keep_temp_witness : wNs.keep_temp = true :=
  parse_args_forces_keep_temp wArgs wNs (Or.inl (by decide)) (by rfl)

/-- C9: the derivation step of `parse_args` modifies only `keep_temp` and
`crop_values`: every other field of the returned `Namespace` is identical to
the corresponding field of the raw parse result. -/
theorem parse_args_frame (args : RawArgs) (ns : Namespace)
    (h : parse_args args = .ok ns) :
    ns.input_files = args.input_files ∧ ns.output_dir = args.output_dir
    ∧ ns.temp_dir = args.temp_dir ∧ ns.force_overwrite = args.force_overwrite
    ∧ ns.scene_cut_threshold = args.scene_cut_threshold
    ∧ ns.min_scene_length = args.min_scene_length
    ∧ ns.enable_single_pass_encode = args.enable_single_pass_encode
    ∧ ns.encoder_parameters = args.encoder_parameters
    ∧ ns.global_parameters = args.global_parameters
    ∧ ns.max_concurrent_encodes = args.max_concurrent_encodes
    ∧ ns.deinterlace = args.deinterlace ∧ ns.dump_commands = args.dump_commands
    ∧ ns.limit_encodes = args.limit_encodes ∧ ns.verbose = args.verbose
    ∧ ns.cutelog_integration = args.cutelog_integration
    ∧ ns.ffmpeg = args.ffmpeg ∧ ns.ffprobe = args.ffprobe
    ∧ ns.ffmpeg_base = args.ffmpeg_base := by
  cases hconv : convertCrops args.crop_values with
  | error e => simp [parse_args, hconv] at h
  | ok cropList =>
    simp only [parse_args, hconv, Except.ok.injEq] at h
    subst h
    exact ⟨rfl, rfl, rfl, rfl, rfl, rfl, rfl, rfl, rfl, rfl, rfl, rfl, rfl,
      rfl, rfl, rfl, rfl, rfl⟩

/-- Witness for C9: at `wArgs` and its derived namespace `wNs`. -/
theorem parse_args_frame_witness :
    wNs.input_files = wArgs.input_files ∧ wNs.output_dir = wArgs.output_dir
    ∧ wNs.temp_dir = wArgs.temp_dir ∧ wNs.force_overwrite = wArgs.force_overwrite
    ∧ wNs.scene_cut_threshold = wArgs.scene_cut_threshold
    ∧ wNs.min_scene_length = wArgs.min_scene_length
    ∧ wNs.enable_single_pass_encode = wArgs.enable_single_pass_encode
    ∧ wNs.encoder_parameters = wArgs.encoder_parameters
    ∧ wNs.global_parameters = wArgs.global_parameters
    ∧ wNs.max_concurrent_encodes = wArgs.max_concurrent_encodes
    ∧ wNs.deinterlace = wArgs.deinterlace ∧ wNs.dump_commands = wArgs.dump_commands
    ∧ wNs.limit_encodes = wArgs.limit_encodes ∧ wNs.verbose = wArgs.verbose
    ∧ wNs.cutelog_integration = wArgs.cutelog_integration
    ∧ wNs.ffmpeg = wArgs.ffmpeg ∧ wNs.ffprobe = wArgs.ffprobe
    ∧ wNs.ffmpeg_base = wArgs.ffmpeg_base :=
  parse_args_frame wArgs wNs (by rfl)

/-- C8: the derivation step never fails on a well-formed raw parse result:
if every raw crop tuple has non-negative components and the input-file list is
non-empty, `parse_args` returns a `Namespace` and its error branch is not
taken. -/
theorem parse_args_total (args : RawArgs)
    (hcrop : ∀ v ∈ args.crop_values, 0 ≤ v.1 ∧ 0 ≤ v.2.1 ∧ 0 ≤ v.2.2.1 ∧ 0 ≤ v.2.2.2)
    (hin : args.input_files ≠ []) :
    (parse_args args).isOk = true := by
  have h := convertCrops_isOk args.crop_values hcrop
  cases hconv : convertCrops args.crop_values with
  | error e => rw [hconv] at h; simp [Except.isOk, Except.toBool] at h
  | ok cs => simp [parse_args, hconv, Except.isOk, Except.toBool]

/-- Witness for C8: at `wArgsCrop`, one input file and one crop tuple. -/
theorem parse_args_total_witness : (parse_args wArgsCrop).isOk = true :=
  parse_args_total wArgsCrop (by decide) (by decide)

/-- C1: for a non-empty list of crop specifications and N input files, the
derived crop-value sequence truncated to length N starts with the given
specifications in order and continues with the last one at every later
position; in particular with specifications [a, b] and 5 input files the
truncation is [a, b, b, b, b]. -/
theorem crop_tail_repetition (specs : List CropValues) (h : specs ≠ []) (N : Nat) :
    (∀ i, ∀ hi : i < specs.length, i < N →
        ((deriveCrops specs N).take N)[i]? = some (some (specs.get ⟨i, hi⟩)))
    ∧ (∀ i, specs.length ≤ i → i < N →
        ((deriveCrops specs N).take N)[i]? = some (some (specs.getLast h)))
    ∧ (∀ a b : CropValues,
        (deriveCrops [a, b] 5).take 5 = [some a, some b, some b, some b, some b]) := by
  refine ⟨?_, ?_, ?_⟩
  · intro i hi hiN
    rw [deriveCrops_of_ne_nil specs h, chained_take_getElem specs _ N i hiN,
      List.getD_eq_getElem specs _ hi]
    simp
  · intro i hle hiN
    rw [deriveCrops_of_ne_nil specs h, chained_take_getElem specs _ N i hiN,
      List.getD_eq_default specs _ hle]
  · intro a b
    rfl

/-- Witness for C1: one specification, three input files, position 2 holds the
repeated last specification. -/
theorem crop_tail_repetition_witness :
    ((deriveCrops [cropA] 3).take 3)[2]? = some (some cropA) := by
  have hw := (crop_tail_repetition [cropA] (by simp) 3).2.1 2 (by simp) (by norm_num)
  simpa using hw

/-- C3: with zero crop specifications and N input files, the derived
crop-value sequence is exactly N `None` markers: its truncation to N is N
markers and the iterator is exhausted from position N on — never unbounded. -/
theorem parse_args_no_crop_markers (args : RawArgs) (ns : Namespace) (N : Nat)
    (hcrop : args.crop_values = []) (hN : args.input_files.length = N) (hN1 : 1 ≤ N)
    (h : parse_args args = .ok ns) :
    ns.crop_values.take N = List.replicate N none
    ∧ ∀ i, (ns.crop_values.get i).isSome ↔ i < N := by
  have hconv : convertCrops args.crop_values = .ok [] := by rw [hcrop]; rfl
  simp only [parse_args, hconv, Except.ok.injEq] at h
  subst h
  constructor
  · show (deriveCrops [] args.input_files.length).take N = _
    rw [hN]
    simp [deriveCrops, CropIter.take]
  · intro i
    show ((deriveCrops [] args.input_files.length).get i).isSome ↔ i < N
    rw [hN]
    by_cases hi : i < N <;> simp [deriveCrops, CropIter.get, hi]

/-- Witness for C3: `wArgs` has no crop options and one input file. -/
theorem parse_args_no_crop_markers_witness :
    wNs.crop_values.take 1 = List.replicate 1 none :=
  (parse_args_no_crop_markers wArgs wNs 1 rfl rfl (by norm_num) (by rfl)).1

/-- C5: for a non-empty specification list, the lazily repeating sequence
built by `parse_args` agrees at every index with the explicit indexing
function from the design notes: element i is the specification at index
min(i, length-1). -/
theorem crop_chain_refines_indexing (specs : List CropValues) (h : specs ≠ [])
    (i N : Nat) :
    (deriveCrops specs N).get i = some (crop_for specs i) := by
  rw [deriveCrops_of_ne_nil specs h]
  show some (some (specs.getD i (specs.getLast h))) = some (crop_for specs i)
  unfold crop_for
  rcases lt_or_le i specs.length with hi | hi
  · have hpos : 0 < specs.length := List.length_pos.mpr h
    have hmin : min i (specs.length - 1) = i := by omega
    rw [hmin, List.getElem?_eq_getElem hi, List.getD_eq_getElem specs _ hi]
  · have hpos : 0 < specs.length := List.length_pos.mpr h
    have hlen : specs.length - 1 < specs.length := by omega
    have hmin : min i (specs.length - 1) = specs.length - 1 := by omega
    rw [hmin, List.getElem?_eq_getElem hlen, List.getD_eq_default specs _ hi,
      List.getLast_eq_getElem specs h]

/-- Witness for C5: two specifications, index 5 past the end. -/
theorem crop_chain_refines_indexing_witness :
    (deriveCrops [cropA, cropB] 7).get 5 = some (crop_for [cropA, cropB] 5) :=
  crop_chain_refines_indexing [cropA, cropB] (by simp) 5 7

end AV1Transcoder
